import Mathlib

/-!
Verification of the two-stage SPSC message pipeline (src/main.cpp).

The development shallowly embeds the core of the program:
the lock-free single-producer/single-consumer ring (`SPSCQueue`),
the configuration loader (`load_config`), the producer loop,
the spawn order of worker threads, the monitoring loop arithmetic,
and the latency percentile computation.

Machine integers are embedded as `Nat` with explicit reduction
modulo `2^32` / `2^64` where the source uses `uint32_t` / `uint64_t`
registers whose overflow is observable.  `double` latency samples are
embedded as exact rationals.
-/

set_option linter.unusedVariables false

namespace Pipeline

/-- `constexpr size_t QUEUE_SIZE = 1 << 14;` from src/main.cpp. -/
def QUEUE_SIZE : Nat := 2 ^ 14

/-- Modulus of a `uint32_t` register. -/
def UINT32_MOD : Nat := 2 ^ 32

/-- Modulus of a `uint64_t` register. -/
def UINT64_MOD : Nat := 2 ^ 64

/-- State of `SPSCQueue<T, Capacity>` from src/main.cpp: a buffer array and
the two indices `head_` (next write slot) and `tail_` (next read slot).
The capacity is passed to each operation, mirroring the template parameter. -/
structure SPSCQueue (T : Type) where
  buffer : Nat → T
  head : Nat
  tail : Nat

namespace SPSCQueue

/-- `SPSCQueue() : head_(0), tail_(0) {}`; the `std::array` buffer is
value-initialized. -/
def init (T : Type) [Inhabited T] : SPSCQueue T :=
  { buffer := fun _ => default, head := 0, tail := 0 }

/-- `bool push(const T& item)` from src/main.cpp: computes
`next = (head + 1) % Capacity`, fails (returning `false`, queue unchanged)
when `next == tail`, otherwise stores the item at `head` and advances
`head` to `next`. -/
def push (Cap : Nat) (q : SPSCQueue T) (item : T) : Bool × SPSCQueue T :=
  if (q.head + 1) % Cap = q.tail then (false, q)
  else
    (true,
      { buffer := fun n => if n = q.head then item else q.buffer n,
        head := (q.head + 1) % Cap, tail := q.tail })

/-- `bool pop(T& item)` from src/main.cpp: fails (returning `false`, queue
unchanged) when `tail == head`, otherwise reads the item at `tail` and
advances `tail` by one modulo the capacity. -/
def pop (Cap : Nat) (q : SPSCQueue T) : Option T × SPSCQueue T :=
  if q.tail = q.head then (none, q)
  else (some (q.buffer q.tail), { q with tail := (q.tail + 1) % Cap })

/-- `size_t size() const` from src/main.cpp:
`(head + Capacity - tail) % Capacity`. -/
def size (Cap : Nat) (q : SPSCQueue T) : Nat :=
  (q.head + Cap - q.tail) % Cap

/-- Both indices of a ring stay below the capacity. -/
def Wf (Cap : Nat) (q : SPSCQueue T) : Prop :=
  q.head < Cap ∧ q.tail < Cap

/-- Abstraction function: the live contents of the ring read from `tail`
to `head` in circular order. -/
def ringList (Cap : Nat) (q : SPSCQueue T) : List T :=
  (List.range (size Cap q)).map (fun i => q.buffer ((q.tail + i) % Cap))

end SPSCQueue

/-- An operation submitted to a ring by the producer or consumer role. -/
inductive QOp (T : Type) where
  | push (x : T)
  | pop

/-- History of an execution against one ring: current state, the sequence
of successfully pushed items, the sequence of successfully popped items. -/
structure ExecRes (T : Type) where
  state : SPSCQueue T
  pushed : List T
  popped : List T

/-- One step of an interleaved producer/consumer execution, recording
accepted pushes and successful pops. -/
def execOp (Cap : Nat) (r : ExecRes T) : QOp T → ExecRes T
  | QOp.push x =>
    let res := SPSCQueue.push Cap r.state x
    { state := res.2,
      pushed := if res.1 then r.pushed ++ [x] else r.pushed,
      popped := r.popped }
  | QOp.pop =>
    let res := SPSCQueue.pop Cap r.state
    match res.1 with
    | some x => { state := res.2, pushed := r.pushed, popped := r.popped ++ [x] }
    | none => { state := res.2, pushed := r.pushed, popped := r.popped }

/-- Run a sequence of operations against an initially empty ring. -/
def exec (Cap : Nat) [Inhabited T] (ops : List (QOp T)) : ExecRes T :=
  ops.foldl (execOp Cap) { state := SPSCQueue.init T, pushed := [], popped := [] }

/-- Invariant of an execution history: both ring indices stay in range and
the items popped so far followed by the live ring contents are exactly the
items accepted by `push`, in order. -/
def ExecInv (Cap : Nat) (r : ExecRes T) : Prop :=
  SPSCQueue.Wf Cap r.state ∧
  r.popped ++ SPSCQueue.ringList Cap r.state = r.pushed

/-- `struct Message` from src/main.cpp.  The C++ fields are `uint8_t`,
`uint32_t` and `uint64_t`; they are embedded as `Nat` (values written by the
program stay in range except for `sequence`, whose `uint32_t` wraparound is
modelled explicitly in the producer). -/
structure Message where
  msg_type : Nat
  producer_id : Nat
  sequence : Nat
  timestamp_ns : Nat
  processor_id : Nat
  processed_ns : Nat
deriving DecidableEq

instance : Inhabited Message := ⟨⟨0, 0, 0, 0, 0, 0⟩⟩

/-- Producer-local registers of the producer lambda in src/main.cpp:
`uint32_t seq` and the shared `uint64_t produced` counter (only this
producer's increments are counted here).  Values are kept reduced modulo
the register width. -/
structure ProducerState where
  seq : Nat
  produced : Nat

/-- One iteration of the producer loop in src/main.cpp, for iteration
index `k`.  The outcome of `stage1[dest].push(msg)` is abstracted by the
oracle `res : Nat → Bool` (it depends on the concurrent consumer
interleaving): `seq` is incremented by `seq++` on every iteration, while
`produced` is incremented only when the push is accepted. -/
def producerStep (res : Nat → Bool) (k : Nat) (st : ProducerState) :
    ProducerState :=
  { seq := (st.seq + 1) % UINT32_MOD,
    produced := if res k then (st.produced + 1) % UINT64_MOD else st.produced }

/-- Producer registers after `k` iterations of the producer loop
(`while (!stop_flag)` body), starting from `seq = 0` and no accepted
pushes. -/
def producerRun (res : Nat → Bool) : Nat → ProducerState
  | 0 => ⟨0, 0⟩
  | k + 1 => producerStep res k (producerRun res k)

/-- The message built at iteration `k` of the producer loop:
`msg_type` is the PRNG draw (modelled by the stream `types`),
`producer_id = pid`, `sequence = seq++` (value before increment),
`timestamp_ns = now_ns()` (modelled by the stream `clock`).
`processor_id` and `processed_ns` are left uninitialized by the producer in
the source; they are embedded as 0, a value none of the claims inspect. -/
def attemptedMsg (types clock : Nat → Nat) (pid : Nat) (res : Nat → Bool)
    (k : Nat) : Message :=
  { msg_type := types k, producer_id := pid,
    sequence := (producerRun res k).seq, timestamp_ns := clock k,
    processor_id := 0, processed_ns := 0 }

/-- The number of accepted pushes among the first `k` iterations. -/
def acceptedCount (res : Nat → Bool) (k : Nat) : Nat :=
  ((List.range k).filter res).length

/-- Producer loop state when the stage-1 ring itself is threaded through
the execution: the configuration routes every type to processor shard 0
(all-zero `stage1_routing`, `processor_count = 1`) and the consumer thread
is never scheduled, so this is the execution in which the single stage-1
ring actually fills up.  `Cap` mirrors the `Capacity` template argument;
the pipeline instantiates it with `QUEUE_SIZE`. -/
structure ProducerQState where
  seq : Nat
  produced : Nat
  q : SPSCQueue Message

/-- Producer loop against the real ring, no consumer scheduled:
each iteration builds the message and attempts `push`; on failure the loop
merely yields and continues with the next iteration. -/
def producerRunQ (Cap : Nat) (types clock : Nat → Nat) (pid : Nat) :
    Nat → ProducerQState
  | 0 => ⟨0, 0, SPSCQueue.init Message⟩
  | k + 1 =>
    let st := producerRunQ Cap types clock pid k
    let msg : Message := ⟨types k, pid, st.seq, clock k, 0, 0⟩
    let pr := SPSCQueue.push Cap st.q msg
    { seq := (st.seq + 1) % UINT32_MOD,
      produced := if pr.1 then (st.produced + 1) % UINT64_MOD else st.produced,
      q := pr.2 }

/-- The message built and pushed at iteration `k` of `producerRunQ`. -/
def attemptedMsgQ (Cap : Nat) (types clock : Nat → Nat) (pid : Nat)
    (k : Nat) : Message :=
  ⟨types k, pid, (producerRunQ Cap types clock pid k).seq, clock k, 0, 0⟩

/-- Constant streams used for concrete producer executions: the PRNG draw
stream (a legal draw of `uniform_int_distribution(0, 3)`) and the clock. -/
def types0 : Nat → Nat := fun _ => 0

/-- Constant clock stream for concrete producer executions. -/
def clock0 : Nat → Nat := fun _ => 0

/-- One entry of the JSON `stage1_rules` array: `msg_type` plus the
`processors` array.  Fields come from JSON integers, hence `Int`. -/
structure Stage1Rule where
  msg_type : Int
  processors : List Int
deriving DecidableEq

/-- One entry of the JSON `stage2_rules` array: `msg_type` plus the single
`strategy` destination. -/
structure Stage2Rule where
  msg_type : Int
  strategy : Int
deriving DecidableEq

/-- The parsed JSON document consumed by `load_config`, after the
peripheral JSON parsing succeeded and all accessed keys have the expected
shapes. -/
structure RawConfig where
  duration_secs : Int
  producer_count : Int
  processor_count : Int
  strategy_count : Int
  stage1_rules : List Stage1Rule
  stage2_rules : List Stage2Rule
deriving DecidableEq

/-- `struct Config` from src/main.cpp. -/
structure Config where
  duration_secs : Int
  producer_count : Int
  processor_count : Int
  strategy_count : Int
  stage1_routing : List Int
  stage2_routing : List Int
deriving DecidableEq

/-- The `for (auto& rule : j["stage1_rules"])` loop of `load_config`:
`cfg.stage1_routing[type] = rule["processors"][0];`.  A `msg_type` outside
`[0, 8)` makes the source index the length-8 vector out of bounds
(undefined behavior), and an empty `processors` array makes the JSON
access throw; both abort the load and are embedded as errors. -/
def applyStage1Rules (routing : List Int) :
    List Stage1Rule → Except String (List Int)
  | [] => Except.ok routing
  | r :: rest =>
    if 0 ≤ r.msg_type ∧ r.msg_type < 8 then
      match r.processors with
      | [] => Except.error "stage1 rule: processors array is empty"
      | p :: _ => applyStage1Rules (routing.set r.msg_type.toNat p) rest
    else Except.error "stage1 rule: msg_type outside the routing table"

/-- The `for (auto& rule : j["stage2_rules"])` loop of `load_config`:
`cfg.stage2_routing[type] = rule["strategy"];`. -/
def applyStage2Rules (routing : List Int) :
    List Stage2Rule → Except String (List Int)
  | [] => Except.ok routing
  | r :: rest =>
    if 0 ≤ r.msg_type ∧ r.msg_type < 8 then
      applyStage2Rules (routing.set r.msg_type.toNat r.strategy) rest
    else Except.error "stage2 rule: msg_type outside the routing table"

/-- `Config load_config(const std::string& path)` from src/main.cpp, after
JSON parsing: copies the four counts, then builds each routing vector by
`resize(8, 0)` followed by the rule loops.  No range check of the
destination indices against the shard counts is present in the source. -/
def load_config (raw : RawConfig) : Except String Config := do
  let s1 ← applyStage1Rules (List.replicate 8 0) raw.stage1_rules
  let s2 ← applyStage2Rules (List.replicate 8 0) raw.stage2_rules
  Except.ok
    { duration_secs := raw.duration_secs,
      producer_count := raw.producer_count,
      processor_count := raw.processor_count,
      strategy_count := raw.strategy_count,
      stage1_routing := s1, stage2_routing := s2 }

/-- `main` spawns the worker threads exactly when `load_config` returned
(an exception from it terminates the process before any thread is
created); no further validation happens in between. -/
def controller_starts (raw : RawConfig) : Bool :=
  match load_config raw with
  | Except.ok _ => true
  | Except.error _ => false

/-- A configuration whose only stage-1 rule routes type 0 to processor 99
while `processor_count = 1`: the routing entry is out of range. -/
def raw99 : RawConfig :=
  { duration_secs := 10, producer_count := 1, processor_count := 1,
    strategy_count := 1, stage1_rules := [⟨0, [99]⟩], stage2_rules := [] }

/-- A small well-formed 1-1-1 configuration. -/
def raw111 : RawConfig :=
  { duration_secs := 2, producer_count := 1, processor_count := 1,
    strategy_count := 1, stage1_rules := [⟨0, [0]⟩],
    stage2_rules := [⟨1, 0⟩] }

/-- The configuration produced by `load_config raw111`. -/
def cfg111 : Config :=
  { duration_secs := 2, producer_count := 1, processor_count := 1,
    strategy_count := 1, stage1_routing := [0, 0, 0, 0, 0, 0, 0, 0],
    stage2_routing := [0, 0, 0, 0, 0, 0, 0, 0] }

/-- A worker thread of the pipeline, identified by role and index. -/
inductive Role where
  | producer (i : Nat)
  | processor (i : Nat)
  | strategy (i : Nat)
deriving DecidableEq

/-- The order in which `main` creates the worker threads: the three
`emplace_back` loops run in source order — producers (lines 178-200),
then processors (205-228), then strategies (233-252). -/
def spawnOrder (cfg : Config) : List Role :=
  (List.range cfg.producer_count.toNat).map Role.producer ++
  (List.range cfg.processor_count.toNat).map Role.processor ++
  (List.range cfg.strategy_count.toNat).map Role.strategy

/-- `uint64_t` subtraction `a - b` (wraparound arithmetic). -/
def sub64 (a b : Nat) : Nat :=
  (a + UINT64_MOD - b % UINT64_MOD) % UINT64_MOD

/-- The monitoring loop of `main`, restricted to the quantities feeding
the "Lost" column: given the per-second snapshots `(p, d)` of the
`produced` and `delivered` counters and the previous snapshot pair,
each iteration computes `uint64_t lost_now = (p - d) - (prev_prod - prev_del)`
and `double lost_m = lost_now / 1e6`, then updates the `prev_*` registers.
The division is embedded exactly, over `ℚ`. -/
def monitorLost (prev : Nat × Nat) : List (Nat × Nat) → List (Nat × ℚ)
  | [] => []
  | (p, d) :: rest =>
    (sub64 (sub64 p d) (sub64 prev.1 prev.2),
      ((sub64 (sub64 p d) (sub64 prev.1 prev.2) : Nat) : ℚ) / 1000000) ::
      monitorLost (p, d) rest

/-- The monitoring loop starting from `prev_prod = 0, prev_del = 0`. -/
def monitorRun (snaps : List (Nat × Nat)) : List (Nat × ℚ) :=
  monitorLost (0, 0) snaps

namespace LatencyStats

/-- `static double LatencyStats::percentile(std::vector<double>& v, double p)`
from src/main.cpp: returns 0 for an empty series, otherwise sorts the
series ascending (`std::sort`) and returns the element at index
`min((size_t)(p * v.size()), v.size() - 1)`.  The `double` samples and the
probability are embedded as exact rationals; for `p ≥ 0` the
`(size_t)` cast is the floor. -/
def percentile (v : List ℚ) (p : ℚ) : ℚ :=
  if v.isEmpty then 0
  else (v.mergeSort).getD (min (p * (v.length : ℚ)).floor.toNat (v.length - 1)) 0

end LatencyStats

/-- The latency series `[1, 2, …, 100]` from scenario S5. -/
def series100 : List ℚ :=
  (List.range 100).map (fun i : Nat => (i : ℚ) + 1)

end Pipeline

namespace Pipeline

theorem mod_two_mul (a n : Nat) (h : a < 2 * n) :
    a % n = if a < n then a else a - n := by
  rcases Nat.lt_or_ge a n with h1 | h1
  · rw [if_pos h1, Nat.mod_eq_of_lt h1]
  · rw [if_neg (Nat.not_lt.mpr h1), Nat.mod_eq_sub_mod h1,
      Nat.mod_eq_of_lt (by omega)]

theorem addModCancel {Cap : Nat} (t i j : Nat) (hCap : 0 < Cap)
    (hi : i < Cap) (hj : j < Cap) (h : (t + i) % Cap = (t + j) % Cap) :
    i = j := by
  have ht : t % Cap < Cap := Nat.mod_lt _ hCap
  have e1 : (t + i) % Cap = (t % Cap + i) % Cap := by
    conv_lhs => rw [Nat.add_mod]
    rw [Nat.mod_eq_of_lt hi]
  have e2 : (t + j) % Cap = (t % Cap + j) % Cap := by
    conv_lhs => rw [Nat.add_mod]
    rw [Nat.mod_eq_of_lt hj]
  rw [e1, e2, mod_two_mul (t % Cap + i) Cap (by omega),
    mod_two_mul (t % Cap + j) Cap (by omega)] at h
  split_ifs at h <;> omega

namespace SPSCQueue

theorem size_lt {T : Type} (Cap : Nat) (hCap : 0 < Cap) (q : SPSCQueue T) :
    size Cap q < Cap :=
  Nat.mod_lt _ hCap

theorem size_char {T : Type} (Cap : Nat) (q : SPSCQueue T)
    (hq : Wf Cap q) :
    size Cap q = if q.tail ≤ q.head then q.head - q.tail
      else q.head + Cap - q.tail := by
  obtain ⟨hh, ht⟩ := hq
  rw [size, mod_two_mul _ _ (by omega)]
  split_ifs <;> omega

theorem full_iff {T : Type} (Cap : Nat) (q : SPSCQueue T) (hCap : 0 < Cap)
    (hq : Wf Cap q) :
    (q.head + 1) % Cap = q.tail ↔ size Cap q = Cap - 1 := by
  obtain ⟨hh, ht⟩ := hq
  rw [size_char Cap q ⟨hh, ht⟩, mod_two_mul _ _ (by omega)]
  split_ifs <;> omega

theorem empty_iff {T : Type} (Cap : Nat) (q : SPSCQueue T) (hCap : 0 < Cap)
    (hq : Wf Cap q) :
    q.tail = q.head ↔ size Cap q = 0 := by
  obtain ⟨hh, ht⟩ := hq
  rw [size_char Cap q ⟨hh, ht⟩]
  split_ifs <;> omega

theorem tail_add_size {T : Type} (Cap : Nat) (q : SPSCQueue T) (hCap : 0 < Cap)
    (hq : Wf Cap q) :
    (q.tail + size Cap q) % Cap = q.head := by
  obtain ⟨hh, ht⟩ := hq
  rw [size_char Cap q ⟨hh, ht⟩]
  split_ifs with h1
  · rw [show q.tail + (q.head - q.tail) = q.head from by omega,
      Nat.mod_eq_of_lt hh]
  · rw [show q.tail + (q.head + Cap - q.tail) = q.head + Cap from by omega,
      Nat.add_mod_right, Nat.mod_eq_of_lt hh]

theorem size_push_aux (Cap h t : Nat) (hCap : 0 < Cap) (hh : h < Cap)
    (ht : t < Cap) (hne : (h + 1) % Cap ≠ t) :
    ((h + 1) % Cap + Cap - t) % Cap = (h + Cap - t) % Cap + 1 := by
  have e1 : (h + 1) % Cap = if h + 1 < Cap then h + 1 else h + 1 - Cap :=
    mod_two_mul _ _ (by omega)
  rw [e1] at hne ⊢
  split_ifs at hne ⊢ with h1
  · rw [mod_two_mul (h + 1 + Cap - t) Cap (by omega),
      mod_two_mul (h + Cap - t) Cap (by omega)]
    split_ifs <;> omega
  · rw [mod_two_mul (h + 1 - Cap + Cap - t) Cap (by omega),
      mod_two_mul (h + Cap - t) Cap (by omega)]
    split_ifs <;> omega

theorem size_pop_aux (Cap h t : Nat) (hCap : 0 < Cap) (hh : h < Cap)
    (ht : t < Cap) (hne : t ≠ h) :
    (h + Cap - (t + 1) % Cap) % Cap = (h + Cap - t) % Cap - 1 := by
  have e1 : (t + 1) % Cap = if t + 1 < Cap then t + 1 else t + 1 - Cap :=
    mod_two_mul _ _ (by omega)
  rw [e1]
  split_ifs with h1
  · rw [mod_two_mul (h + Cap - (t + 1)) Cap (by omega),
      mod_two_mul (h + Cap - t) Cap (by omega)]
    split_ifs <;> omega
  · rw [mod_two_mul (h + Cap - (t + 1 - Cap)) Cap (by omega),
      mod_two_mul (h + Cap - t) Cap (by omega)]
    split_ifs <;> omega

theorem push_fail_iff {T : Type} (Cap : Nat) (q : SPSCQueue T) (x : T) :
    (push Cap q x).1 = false ↔ (q.head + 1) % Cap = q.tail := by
  by_cases h : (q.head + 1) % Cap = q.tail <;> simp [push, h]

theorem push_fail_state {T : Type} (Cap : Nat) (q : SPSCQueue T) (x : T)
    (h : (push Cap q x).1 = false) : (push Cap q x).2 = q := by
  rw [push_fail_iff] at h
  simp [push, h]

theorem pop_fail_iff {T : Type} (Cap : Nat) (q : SPSCQueue T) :
    (pop Cap q).1 = none ↔ q.head = q.tail := by
  by_cases h : q.tail = q.head
  · simp [pop, h]
  · simp [pop, h]
    omega

theorem pop_fail_state {T : Type} (Cap : Nat) (q : SPSCQueue T)
    (h : (pop Cap q).1 = none) : (pop Cap q).2 = q := by
  rw [pop_fail_iff] at h
  simp [pop, h.symm]

theorem push_succ_state {T : Type} (Cap : Nat) (q : SPSCQueue T) (x : T)
    (hne : (q.head + 1) % Cap ≠ q.tail) :
    (push Cap q x).2 =
      { buffer := fun n => if n = q.head then x else q.buffer n,
        head := (q.head + 1) % Cap, tail := q.tail } := by
  simp [push, hne]

theorem pop_succ_state {T : Type} (Cap : Nat) (q : SPSCQueue T)
    (hne : q.tail ≠ q.head) :
    (pop Cap q).2 = { q with tail := (q.tail + 1) % Cap } := by
  simp [pop, hne]

theorem ringList_push {T : Type} (Cap : Nat) (hCap : 0 < Cap)
    (q : SPSCQueue T) (x : T) (hq : Wf Cap q)
    (hne : (q.head + 1) % Cap ≠ q.tail) :
    ringList Cap (push Cap q x).2 = ringList Cap q ++ [x] := by
  obtain ⟨hh, ht⟩ := hq
  have hlt : size Cap q < Cap := size_lt Cap hCap q
  have hfull : size Cap q ≠ Cap - 1 := by
    intro hfe
    exact hne ((full_iff Cap q hCap ⟨hh, ht⟩).mpr hfe)
  rw [push_succ_state Cap q x hne]
  have hsz :
      size Cap ({ buffer := fun n => if n = q.head then x else q.buffer n,
                  head := (q.head + 1) % Cap, tail := q.tail } : SPSCQueue T) =
      size Cap q + 1 := by
    show ((q.head + 1) % Cap + Cap - q.tail) % Cap = _
    exact size_push_aux Cap q.head q.tail hCap hh ht hne
  rw [ringList, hsz, List.range_succ, List.map_append, ringList]
  have hslot : (q.tail + size Cap q) % Cap = q.head :=
    tail_add_size Cap q hCap ⟨hh, ht⟩
  congr 1
  · apply List.map_congr_left
    intro i hi
    have hilt : i < size Cap q := List.mem_range.mp hi
    have hneq : (q.tail + i) % Cap ≠ q.head := by
      intro he
      have : i = size Cap q := by
        apply addModCancel q.tail i (size Cap q) hCap (by omega) (by omega)
        rw [he, hslot]
      omega
    simp [hneq]
  · simp [hslot]

theorem ringList_pop {T : Type} (Cap : Nat) (hCap : 0 < Cap)
    (q : SPSCQueue T) (hq : Wf Cap q) (hne : q.tail ≠ q.head) :
    ringList Cap q = q.buffer q.tail :: ringList Cap (pop Cap q).2 := by
  obtain ⟨hh, ht⟩ := hq
  have hpos : 0 < size Cap q := by
    have h0 := empty_iff Cap q hCap ⟨hh, ht⟩
    rcases Nat.eq_zero_or_pos (size Cap q) with hz | hp
    · exact absurd (h0.mpr hz) hne
    · exact hp
  rw [pop_succ_state Cap q hne]
  have hsz :
      size Cap ({ q with tail := (q.tail + 1) % Cap } : SPSCQueue T) =
      size Cap q - 1 := by
    show (q.head + Cap - (q.tail + 1) % Cap) % Cap = _
    exact size_pop_aux Cap q.head q.tail hCap hh ht hne
  obtain ⟨len, hlen⟩ : ∃ len, size Cap q = len + 1 :=
    ⟨size Cap q - 1, by omega⟩
  rw [ringList, ringList, hsz, hlen, Nat.add_sub_cancel,
    List.range_succ_eq_map, List.map_cons, List.map_map]
  congr 1
  · rw [Nat.add_zero, Nat.mod_eq_of_lt ht]
  · apply List.map_congr_left
    intro i hi
    show q.buffer ((q.tail + Nat.succ i) % Cap) =
      q.buffer (((q.tail + 1) % Cap + i) % Cap)
    rw [Nat.mod_add_mod, show q.tail + 1 + i = q.tail + Nat.succ i from by omega]

end SPSCQueue

theorem execOp_inv {T : Type} (Cap : Nat) (hCap : 0 < Cap) (r : ExecRes T)
    (op : QOp T) (hr : ExecInv Cap r) : ExecInv Cap (execOp Cap r op) := by
  obtain ⟨⟨hh, ht⟩, habs⟩ := hr
  cases op with
  | push x =>
    by_cases hfull : (r.state.head + 1) % Cap = r.state.tail
    · have he : execOp Cap r (QOp.push x) = r := by
        simp [execOp, SPSCQueue.push, hfull]
      rw [he]
      exact ⟨⟨hh, ht⟩, habs⟩
    · have hres : (SPSCQueue.push Cap r.state x).1 = true := by
        simp [SPSCQueue.push, hfull]
      have hst : (execOp Cap r (QOp.push x)).state =
          (SPSCQueue.push Cap r.state x).2 := by
        simp [execOp]
      have hpu : (execOp Cap r (QOp.push x)).pushed = r.pushed ++ [x] := by
        simp [execOp, hres]
      have hpo : (execOp Cap r (QOp.push x)).popped = r.popped := by
        simp [execOp]
      refine ⟨?_, ?_⟩
      · rw [hst, SPSCQueue.push_succ_state Cap r.state x hfull]
        exact ⟨Nat.mod_lt _ hCap, ht⟩
      · rw [hst, hpu, hpo,
          SPSCQueue.ringList_push Cap hCap r.state x ⟨hh, ht⟩ hfull,
          ← List.append_assoc, habs]
  | pop =>
    by_cases hemp : r.state.tail = r.state.head
    · have he : execOp Cap r QOp.pop = r := by
        simp [execOp, SPSCQueue.pop, hemp]
      rw [he]
      exact ⟨⟨hh, ht⟩, habs⟩
    · have hres : (SPSCQueue.pop Cap r.state).1 = some (r.state.buffer r.state.tail) := by
        simp [SPSCQueue.pop, hemp]
      have hst : (execOp Cap r QOp.pop).state = (SPSCQueue.pop Cap r.state).2 := by
        simp [execOp, hres]
      have hpu : (execOp Cap r QOp.pop).pushed = r.pushed := by
        simp [execOp, hres]
      have hpo : (execOp Cap r QOp.pop).popped =
          r.popped ++ [r.state.buffer r.state.tail] := by
        simp [execOp, hres]
      refine ⟨?_, ?_⟩
      · rw [hst, SPSCQueue.pop_succ_state Cap r.state hemp]
        exact ⟨hh, Nat.mod_lt _ hCap⟩
      · rw [hst, hpu, hpo, List.append_assoc, List.singleton_append,
          ← SPSCQueue.ringList_pop Cap hCap r.state ⟨hh, ht⟩ hemp, habs]

theorem foldl_execOp_inv {T : Type} (Cap : Nat) (hCap : 0 < Cap)
    (ops : List (QOp T)) :
    ∀ r : ExecRes T, ExecInv Cap r → ExecInv Cap (ops.foldl (execOp Cap) r) := by
  induction ops with
  | nil => intro r hr; exact hr
  | cons op rest ih =>
    intro r hr
    exact ih _ (execOp_inv Cap hCap r op hr)

theorem exec_inv {T : Type} [Inhabited T] (Cap : Nat) (hCap : 0 < Cap)
    (ops : List (QOp T)) : ExecInv Cap (exec Cap ops) := by
  apply foldl_execOp_inv Cap hCap ops
  refine ⟨⟨hCap, hCap⟩, ?_⟩
  show [] ++ SPSCQueue.ringList Cap (SPSCQueue.init T) = []
  simp [SPSCQueue.ringList, SPSCQueue.size, SPSCQueue.init]

/-- C4: for the SPSC ring of capacity `Cap`, `push` returns `false` and
changes nothing exactly when `(head + 1) mod Cap == tail`, `pop` returns
`false` and changes nothing exactly when `head == tail`, and the ring size
`(head + Cap - tail) mod Cap` is at most `Cap - 1`.  Both operations are
embedded as total pure functions: they never block, spin or allocate. -/
theorem spec_c4 {T : Type} (Cap : Nat) (q : SPSCQueue T) (x : T)
    (hCap : 0 < Cap) :
    ((SPSCQueue.push Cap q x).1 = false ↔ (q.head + 1) % Cap = q.tail) ∧
    ((SPSCQueue.push Cap q x).1 = false → (SPSCQueue.push Cap q x).2 = q) ∧
    ((SPSCQueue.pop Cap q).1 = none ↔ q.head = q.tail) ∧
    ((SPSCQueue.pop Cap q).1 = none → (SPSCQueue.pop Cap q).2 = q) ∧
    SPSCQueue.size Cap q ≤ Cap - 1 := by
  refine ⟨SPSCQueue.push_fail_iff Cap q x, SPSCQueue.push_fail_state Cap q x,
    SPSCQueue.pop_fail_iff Cap q, SPSCQueue.pop_fail_state Cap q, ?_⟩
  have := SPSCQueue.size_lt Cap hCap q
  omega

/-- Witness for C4 at capacity 4 and the ring state `head = 2, tail = 3`
(a full ring). -/
theorem spec_c4_witness :
    (0 < 4) ∧
    (((SPSCQueue.push 4 (⟨fun _ => 0, 2, 3⟩ : SPSCQueue Nat) 7).1 = false ↔
        ((⟨fun _ => 0, 2, 3⟩ : SPSCQueue Nat).head + 1) % 4 =
        (⟨fun _ => 0, 2, 3⟩ : SPSCQueue Nat).tail) ∧
      ((SPSCQueue.push 4 (⟨fun _ => 0, 2, 3⟩ : SPSCQueue Nat) 7).1 = false →
        (SPSCQueue.push 4 (⟨fun _ => 0, 2, 3⟩ : SPSCQueue Nat) 7).2 =
        (⟨fun _ => 0, 2, 3⟩ : SPSCQueue Nat)) ∧
      ((SPSCQueue.pop 4 (⟨fun _ => 0, 2, 3⟩ : SPSCQueue Nat)).1 = none ↔
        (⟨fun _ => 0, 2, 3⟩ : SPSCQueue Nat).head =
        (⟨fun _ => 0, 2, 3⟩ : SPSCQueue Nat).tail) ∧
      ((SPSCQueue.pop 4 (⟨fun _ => 0, 2, 3⟩ : SPSCQueue Nat)).1 = none →
        (SPSCQueue.pop 4 (⟨fun _ => 0, 2, 3⟩ : SPSCQueue Nat)).2 =
        (⟨fun _ => 0, 2, 3⟩ : SPSCQueue Nat)) ∧
      SPSCQueue.size 4 (⟨fun _ => 0, 2, 3⟩ : SPSCQueue Nat) ≤ 4 - 1) :=
  ⟨by decide, spec_c4 4 (⟨fun _ => 0, 2, 3⟩ : SPSCQueue Nat) 7 (by decide)⟩

/-- C5: over any interleaving of push and pop operations by one producer
and one consumer on an initially empty ring, the popped items followed by
the live ring contents equal the accepted pushed items — in particular the
popped sequence is a prefix of the pushed sequence (FIFO, no loss, no
duplication, no reordering) — and the ring size `(head - tail) mod Cap`
never exceeds `Cap - 1` (every reachable state is final state of some
operation prefix). -/
theorem spec_c5 {T : Type} [Inhabited T] (Cap : Nat) (hCap : 0 < Cap)
    (ops : List (QOp T)) :
    (∃ rest, (exec Cap ops).popped ++ rest = (exec Cap ops).pushed) ∧
    (exec Cap ops).popped ++ SPSCQueue.ringList Cap (exec Cap ops).state =
      (exec Cap ops).pushed ∧
    SPSCQueue.size Cap (exec Cap ops).state ≤ Cap - 1 := by
  obtain ⟨hwf, habs⟩ := exec_inv Cap hCap ops
  refine ⟨⟨SPSCQueue.ringList Cap (exec Cap ops).state, habs⟩, habs, ?_⟩
  have := SPSCQueue.size_lt Cap hCap (exec Cap ops).state
  omega

/-- Witness for C5: capacity 4, operation sequence push 1, push 2, pop,
push 3. -/
theorem spec_c5_witness :
    (0 < 4) ∧
    ((∃ rest,
        (exec 4 [QOp.push 1, QOp.push 2, QOp.pop, QOp.push 3]).popped ++ rest =
        (exec 4 [QOp.push 1, QOp.push 2, QOp.pop, QOp.push 3]).pushed) ∧
      (exec 4 [QOp.push 1, QOp.push 2, QOp.pop, QOp.push 3]).popped ++
        SPSCQueue.ringList 4
          (exec 4 [QOp.push 1, QOp.push 2, QOp.pop, QOp.push 3]).state =
        (exec 4 [QOp.push 1, QOp.push 2, QOp.pop, QOp.push 3]).pushed ∧
      SPSCQueue.size 4
        (exec 4 [QOp.push 1, QOp.push 2, QOp.pop, QOp.push 3]).state ≤ 4 - 1) :=
  ⟨by decide, spec_c5 4 (by decide) [QOp.push 1, QOp.push 2, QOp.pop, QOp.push 3]⟩

theorem producerRun_seq (res : Nat → Bool) (k : Nat) :
    (producerRun res k).seq = k % UINT32_MOD := by
  induction k with
  | zero => simp [producerRun]
  | succ k ih =>
    show (producerStep res k (producerRun res k)).seq = _
    rw [producerStep, ih]
    simp [Nat.mod_add_mod]

theorem producerRun_produced (res : Nat → Bool) (k : Nat) :
    (producerRun res k).produced = acceptedCount res k % UINT64_MOD := by
  induction k with
  | zero => simp [producerRun, acceptedCount]
  | succ k ih =>
    show (producerStep res k (producerRun res k)).produced = _
    rw [producerStep, ih]
    have hcnt : acceptedCount res (k + 1) =
        if res k then acceptedCount res k + 1 else acceptedCount res k := by
      rw [acceptedCount, acceptedCount, List.range_succ, List.filter_append]
      by_cases h : res k <;> simp [h]
    rw [hcnt]
    by_cases h : res k <;> simp [h, Nat.mod_add_mod]

theorem acceptedCount_le (res : Nat → Bool) (k : Nat) :
    acceptedCount res k ≤ k := by
  have := List.length_filter_le res (List.range k)
  simpa [acceptedCount] using this

theorem acceptedCount_lt (res : Nat → Bool) (k i : Nat) (hik : i < k)
    (hf : res i = false) : acceptedCount res k < k := by
  rcases Nat.lt_or_ge (acceptedCount res k) k with h | h
  · exact h
  · exfalso
    have he : ((List.range k).filter res).length = (List.range k).length := by
      have h1 := acceptedCount_le res k
      rw [acceptedCount] at h1 h
      simp only [List.length_range] at *
      omega
    have hall := List.filter_length_eq_length.mp he
    have := hall i (List.mem_range.mpr hik)
    rw [hf] at this
    exact Bool.noConfusion this

/-- C7: the `sequence` register advances by one with every attempted
message (it equals the iteration count, modulo the `uint32_t` width, no
matter which pushes the ring rejected), while `produced` counts only the
accepted pushes; hence whenever at least one push among the first `k` was
rejected, the next sequence value `k` differs from the produced count. -/
theorem spec_c7 (res : Nat → Bool) (k : Nat) (hk : k < UINT32_MOD) :
    (producerRun res k).seq = k ∧
    (producerRun res k).produced = acceptedCount res k ∧
    (∀ i, i < k → res i = false →
      (producerRun res k).seq ≠ (producerRun res k).produced) := by
  have hseq : (producerRun res k).seq = k := by
    rw [producerRun_seq, Nat.mod_eq_of_lt hk]
  have hcnt : acceptedCount res k < UINT64_MOD := by
    have h1 := acceptedCount_le res k
    have : UINT32_MOD < UINT64_MOD := by decide
    omega
  have hprod : (producerRun res k).produced = acceptedCount res k := by
    rw [producerRun_produced, Nat.mod_eq_of_lt hcnt]
  refine ⟨hseq, hprod, ?_⟩
  intro i hik hf
  rw [hseq, hprod]
  have := acceptedCount_lt res k i hik hf
  omega

/-- Witness for C7: three iterations in which the second push is rejected;
the sequence counter reads 3 while only 2 messages were produced. -/
theorem spec_c7_witness :
    (3 < UINT32_MOD) ∧
    ((producerRun (fun i => decide (i ≠ 1)) 3).seq = 3 ∧
      (producerRun (fun i => decide (i ≠ 1)) 3).produced =
        acceptedCount (fun i => decide (i ≠ 1)) 3 ∧
      (∀ i, i < 3 → (fun i => decide (i ≠ 1)) i = false →
        (producerRun (fun i => decide (i ≠ 1)) 3).seq ≠
        (producerRun (fun i => decide (i ≠ 1)) 3).produced)) :=
  ⟨by decide, spec_c7 (fun i => decide (i ≠ 1)) 3 (by decide)⟩

theorem producerRunQ_seq (Cap : Nat) (types clock : Nat → Nat) (pid k : Nat) :
    (producerRunQ Cap types clock pid k).seq = k % UINT32_MOD := by
  induction k with
  | zero =>
    show (0 : Nat) = 0 % UINT32_MOD
    simp
  | succ k ih =>
    have h : (producerRunQ Cap types clock pid (k + 1)).seq =
        ((producerRunQ Cap types clock pid k).seq + 1) % UINT32_MOD := rfl
    rw [h, ih, Nat.mod_add_mod]

theorem producerRunQ_q (Cap : Nat) (hCap : 0 < Cap) (types clock : Nat → Nat)
    (pid : Nat) (k : Nat) :
    (producerRunQ Cap types clock pid k).q.head = min k (Cap - 1) ∧
    (producerRunQ Cap types clock pid k).q.tail = 0 := by
  induction k with
  | zero =>
    constructor
    · show (0 : Nat) = min 0 (Cap - 1)
      omega
    · rfl
  | succ k ih =>
    obtain ⟨ih1, ih2⟩ := ih
    have hq : (producerRunQ Cap types clock pid (k + 1)).q =
        (SPSCQueue.push Cap (producerRunQ Cap types clock pid k).q
          ⟨types k, pid, (producerRunQ Cap types clock pid k).seq,
            clock k, 0, 0⟩).2 := rfl
    by_cases hk : k < Cap - 1
    · have hcond : ((producerRunQ Cap types clock pid k).q.head + 1) % Cap ≠
          (producerRunQ Cap types clock pid k).q.tail := by
        rw [ih1, ih2, show min k (Cap - 1) = k from by omega,
          Nat.mod_eq_of_lt (by omega)]
        omega
      rw [hq, SPSCQueue.push_succ_state Cap _ _ hcond]
      constructor
      · show ((producerRunQ Cap types clock pid k).q.head + 1) % Cap = _
        rw [ih1, show min k (Cap - 1) = k from by omega,
          Nat.mod_eq_of_lt (by omega)]
        omega
      · exact ih2
    · have hcond : ((producerRunQ Cap types clock pid k).q.head + 1) % Cap =
          (producerRunQ Cap types clock pid k).q.tail := by
        rw [ih1, ih2, show min k (Cap - 1) = Cap - 1 from by omega,
          show Cap - 1 + 1 = Cap from by omega, Nat.mod_self]
      have hfail := (SPSCQueue.push_fail_iff Cap
        (producerRunQ Cap types clock pid k).q
        (⟨types k, pid, (producerRunQ Cap types clock pid k).seq,
          clock k, 0, 0⟩ : Message)).mpr hcond
      rw [hq, SPSCQueue.push_fail_state Cap _ _ hfail, ih1, ih2]
      constructor
      · omega
      · rfl

theorem producerRunQ_push_fails (Cap : Nat) (hCap : 0 < Cap)
    (types clock : Nat → Nat) (pid k : Nat) (hk : Cap - 1 ≤ k) (m : Message) :
    (SPSCQueue.push Cap (producerRunQ Cap types clock pid k).q m).1 = false := by
  obtain ⟨h1, h2⟩ := producerRunQ_q Cap hCap types clock pid k
  apply (SPSCQueue.push_fail_iff Cap _ m).mpr
  rw [h1, h2, show min k (Cap - 1) = Cap - 1 from by omega,
    show Cap - 1 + 1 = Cap from by omega, Nat.mod_self]

/-- C2 corrected: after a push is rejected, the producer loop does not
retry the same message; the next iteration builds a fresh message — a new
PRNG draw, the next sequence value and a new timestamp — so the message
attempted after a failure carries `sequence` one larger than the failed
one. -/
theorem spec_c2 (types clock : Nat → Nat) (pid : Nat) (res : Nat → Bool)
    (k : Nat) (hk : k + 1 < UINT32_MOD) (hfail : res k = false) :
    attemptedMsg types clock pid res (k + 1) =
      { msg_type := types (k + 1), producer_id := pid,
        sequence := (attemptedMsg types clock pid res k).sequence + 1,
        timestamp_ns := clock (k + 1), processor_id := 0,
        processed_ns := 0 } := by
  have h1 : (producerRun res (k + 1)).seq = k + 1 := by
    rw [producerRun_seq, Nat.mod_eq_of_lt hk]
  have h2 : (producerRun res k).seq = k := by
    rw [producerRun_seq, Nat.mod_eq_of_lt (by omega)]
  simp [attemptedMsg, h1, h2]

/-- Witness for the corrected C2: the push at iteration 0 fails and the
message attempted at iteration 1 is freshly generated. -/
theorem spec_c2_witness :
    (0 + 1 < UINT32_MOD) ∧ ((fun _ : Nat => false) 0 = false) ∧
    (attemptedMsg types0 clock0 0 (fun _ => false) (0 + 1) =
      { msg_type := types0 (0 + 1), producer_id := 0,
        sequence := (attemptedMsg types0 clock0 0 (fun _ => false) 0).sequence + 1,
        timestamp_ns := clock0 (0 + 1), processor_id := 0,
        processed_ns := 0 }) :=
  ⟨by decide, rfl, spec_c2 types0 clock0 0 (fun _ => false) 0 (by decide) rfl⟩

/-- C2 counterexample: in the execution where the consumer thread is not
yet scheduled (configuration 1-1-1, all-zero routing), the first 16383
pushes fill the stage-1 ring of capacity `QUEUE_SIZE = 16384`; the push of
the message with sequence 16383 at iteration 16383 is rejected, and the
message the producer attempts next has sequence 16384 — it is a newly
generated message, not a retry of the rejected one, contradicting the
claim that the same message (same sequence) is retried until accepted. -/
theorem spec_c2_counterexample :
    (SPSCQueue.push QUEUE_SIZE (producerRunQ QUEUE_SIZE types0 clock0 0 16383).q
      (attemptedMsgQ QUEUE_SIZE types0 clock0 0 16383)).1 = false ∧
    (attemptedMsgQ QUEUE_SIZE types0 clock0 0 16383).sequence = 16383 ∧
    (attemptedMsgQ QUEUE_SIZE types0 clock0 0 16384).sequence = 16384 ∧
    attemptedMsgQ QUEUE_SIZE types0 clock0 0 16384 ≠
      attemptedMsgQ QUEUE_SIZE types0 clock0 0 16383 := by
  have hseq : ∀ k, (attemptedMsgQ QUEUE_SIZE types0 clock0 0 k).sequence =
      (producerRunQ QUEUE_SIZE types0 clock0 0 k).seq := fun _ => rfl
  have hs1 : (attemptedMsgQ QUEUE_SIZE types0 clock0 0 16383).sequence = 16383 := by
    rw [hseq, producerRunQ_seq]
    decide
  have hs2 : (attemptedMsgQ QUEUE_SIZE types0 clock0 0 16384).sequence = 16384 := by
    rw [hseq, producerRunQ_seq]
    decide
  refine ⟨?_, hs1, hs2, ?_⟩
  · exact producerRunQ_push_fails QUEUE_SIZE (by decide) types0 clock0 0 16383
      (by decide) _
  · intro he
    have : (attemptedMsgQ QUEUE_SIZE types0 clock0 0 16384).sequence =
        (attemptedMsgQ QUEUE_SIZE types0 clock0 0 16383).sequence := by rw [he]
    rw [hs1, hs2] at this
    omega

theorem applyStage1Rules_ok (rules : List Stage1Rule) :
    ∀ routing : List Int,
      (∀ r ∈ rules, (0 ≤ r.msg_type ∧ r.msg_type < 8) ∧ r.processors ≠ []) →
      ∃ out, applyStage1Rules routing rules = Except.ok out := by
  induction rules with
  | nil => exact fun routing _ => ⟨routing, rfl⟩
  | cons r rest ih =>
    intro routing h
    have hr := h r (List.mem_cons_self r rest)
    rw [applyStage1Rules, if_pos hr.1]
    cases hp : r.processors with
    | nil => exact absurd hp hr.2
    | cons p ps =>
      exact ih _ (fun r' hr' => h r' (List.mem_cons_of_mem r hr'))

theorem applyStage2Rules_ok (rules : List Stage2Rule) :
    ∀ routing : List Int,
      (∀ r ∈ rules, 0 ≤ r.msg_type ∧ r.msg_type < 8) →
      ∃ out, applyStage2Rules routing rules = Except.ok out := by
  induction rules with
  | nil => exact fun routing _ => ⟨routing, rfl⟩
  | cons r rest ih =>
    intro routing h
    rw [applyStage2Rules, if_pos (h r (List.mem_cons_self r rest))]
    exact ih _ (fun r' hr' => h r' (List.mem_cons_of_mem r hr'))

/-- C1 corrected: `load_config` performs no range validation of the
routing destinations.  For every configuration whose rules are readable at
all (each `msg_type` indexes the length-8 vector and each `processors`
array is nonempty), the load succeeds and the controller starts — no
matter how the destination values compare to `processor_count` and
`strategy_count`. -/
theorem spec_c1 (raw : RawConfig)
    (h1 : ∀ r ∈ raw.stage1_rules,
      (0 ≤ r.msg_type ∧ r.msg_type < 8) ∧ r.processors ≠ [])
    (h2 : ∀ r ∈ raw.stage2_rules, 0 ≤ r.msg_type ∧ r.msg_type < 8) :
    controller_starts raw = true := by
  obtain ⟨s1, hs1⟩ := applyStage1Rules_ok raw.stage1_rules (List.replicate 8 0) h1
  obtain ⟨s2, hs2⟩ := applyStage2Rules_ok raw.stage2_rules (List.replicate 8 0) h2
  have hlc : load_config raw = Except.ok
      { duration_secs := raw.duration_secs,
        producer_count := raw.producer_count,
        processor_count := raw.processor_count,
        strategy_count := raw.strategy_count,
        stage1_routing := s1, stage2_routing := s2 } := by
    rw [show load_config raw =
        Except.bind (applyStage1Rules (List.replicate 8 0) raw.stage1_rules)
          (fun s1 =>
            Except.bind (applyStage2Rules (List.replicate 8 0) raw.stage2_rules)
              (fun s2 => Except.ok
                { duration_secs := raw.duration_secs,
                  producer_count := raw.producer_count,
                  processor_count := raw.processor_count,
                  strategy_count := raw.strategy_count,
                  stage1_routing := s1, stage2_routing := s2 }))
      from rfl, hs1, hs2]
    rfl
  rw [controller_starts, hlc]

/-- Witness for the corrected C1: `raw99` routes type 0 to processor 99
although only one processor exists, and the controller starts anyway. -/
theorem spec_c1_witness :
    (∀ r ∈ raw99.stage1_rules,
      (0 ≤ r.msg_type ∧ r.msg_type < 8) ∧ r.processors ≠ []) ∧
    (∀ r ∈ raw99.stage2_rules, 0 ≤ r.msg_type ∧ r.msg_type < 8) ∧
    controller_starts raw99 = true :=
  ⟨by decide, by decide, spec_c1 raw99 (by decide) (by decide)⟩

/-- C1 counterexample: the configuration `raw99` has the stage-1 routing
entry 99 for type 0 while `processor_count = 1` — out of range — yet
`load_config` accepts it verbatim and the controller starts instead of
refusing. -/
theorem spec_c1_counterexample :
    load_config raw99 = Except.ok
      { duration_secs := 10, producer_count := 1, processor_count := 1,
        strategy_count := 1,
        stage1_routing := [99, 0, 0, 0, 0, 0, 0, 0],
        stage2_routing := [0, 0, 0, 0, 0, 0, 0, 0] } ∧
    controller_starts raw99 = true ∧
    ¬ ((99 : Int) < 1) :=
  ⟨rfl, rfl, by decide⟩

theorem applyStage1Rules_unmentioned (t : Nat) (rules : List Stage1Rule) :
    ∀ routing out, applyStage1Rules routing rules = Except.ok out →
      (∀ r ∈ rules, r.msg_type ≠ (t : Int)) →
      out.getD t 0 = routing.getD t 0 := by
  induction rules with
  | nil =>
    intro routing out h hall
    cases h
    rfl
  | cons r rest ih =>
    intro routing out h hall
    rw [applyStage1Rules] at h
    by_cases hc : 0 ≤ r.msg_type ∧ r.msg_type < 8
    · rw [if_pos hc] at h
      cases hp : r.processors with
      | nil =>
        rw [hp] at h
        cases h
      | cons p ps =>
        rw [hp] at h
        have hrec := ih _ _ h (fun r' hr' => hall r' (List.mem_cons_of_mem r hr'))
        rw [hrec]
        have hne : r.msg_type.toNat ≠ t := by
          intro he
          apply hall r (List.mem_cons_self r rest)
          rw [← he, Int.toNat_of_nonneg hc.1]
        simp [List.getD_eq_getElem?_getD, List.getElem?_set_ne hne]
    · rw [if_neg hc] at h
      cases h

theorem applyStage2Rules_unmentioned (t : Nat) (rules : List Stage2Rule) :
    ∀ routing out, applyStage2Rules routing rules = Except.ok out →
      (∀ r ∈ rules, r.msg_type ≠ (t : Int)) →
      out.getD t 0 = routing.getD t 0 := by
  induction rules with
  | nil =>
    intro routing out h hall
    cases h
    rfl
  | cons r rest ih =>
    intro routing out h hall
    rw [applyStage2Rules] at h
    by_cases hc : 0 ≤ r.msg_type ∧ r.msg_type < 8
    · rw [if_pos hc] at h
      have hrec := ih _ _ h (fun r' hr' => hall r' (List.mem_cons_of_mem r hr'))
      rw [hrec]
      have hne : r.msg_type.toNat ≠ t := by
        intro he
        apply hall r (List.mem_cons_self r rest)
        rw [← he, Int.toNat_of_nonneg hc.1]
      simp [List.getD_eq_getElem?_getD, List.getElem?_set_ne hne]
    · rw [if_neg hc] at h
      cases h

theorem load_config_routing (raw : RawConfig) (cfg : Config)
    (hload : load_config raw = Except.ok cfg) :
    applyStage1Rules (List.replicate 8 0) raw.stage1_rules =
      Except.ok cfg.stage1_routing ∧
    applyStage2Rules (List.replicate 8 0) raw.stage2_rules =
      Except.ok cfg.stage2_routing := by
  rw [load_config] at hload
  cases h1 : applyStage1Rules (List.replicate 8 0) raw.stage1_rules with
  | error e =>
    rw [h1] at hload
    cases hload
  | ok s1 =>
    rw [h1] at hload
    cases h2 : applyStage2Rules (List.replicate 8 0) raw.stage2_rules with
    | error e =>
      rw [h2] at hload
      cases hload
    | ok s2 =>
      rw [h2] at hload
      cases hload
      exact ⟨rfl, rfl⟩

/-- C9: a message type in `[0, 7]` not mentioned by any `stage1_rules`
entry keeps routing entry 0 (the `resize(8, 0)` default), and likewise for
`stage2_rules`: only listed types are overwritten. -/
theorem spec_c9 (raw : RawConfig) (cfg : Config) (t : Nat)
    (hload : load_config raw = Except.ok cfg) (ht : t < 8)
    (h1 : ∀ r ∈ raw.stage1_rules, r.msg_type ≠ (t : Int))
    (h2 : ∀ r ∈ raw.stage2_rules, r.msg_type ≠ (t : Int)) :
    cfg.stage1_routing.getD t 0 = 0 ∧ cfg.stage2_routing.getD t 0 = 0 := by
  obtain ⟨hr1, hr2⟩ := load_config_routing raw cfg hload
  have hz : (List.replicate 8 (0 : Int)).getD t 0 = 0 := by
    rw [List.getD_eq_getElem?_getD, List.getElem?_replicate]
    split_ifs
    all_goals rfl
  constructor
  · rw [applyStage1Rules_unmentioned t raw.stage1_rules _ _ hr1 h1, hz]
  · rw [applyStage2Rules_unmentioned t raw.stage2_rules _ _ hr2 h2, hz]

/-- Witness for C9: in `raw111` the type 5 is mentioned by no rule and
routes to 0 in both stages. -/
theorem spec_c9_witness :
    (load_config raw111 = Except.ok cfg111) ∧ (5 < 8) ∧
    (∀ r ∈ raw111.stage1_rules, r.msg_type ≠ ((5 : Nat) : Int)) ∧
    (∀ r ∈ raw111.stage2_rules, r.msg_type ≠ ((5 : Nat) : Int)) ∧
    (cfg111.stage1_routing.getD 5 0 = 0 ∧ cfg111.stage2_routing.getD 5 0 = 0) :=
  ⟨rfl, by decide, by decide, by decide,
    spec_c9 raw111 cfg111 5 rfl (by decide) (by decide) (by decide)⟩

theorem applyStage1Rules_take1 (rules : List Stage1Rule) :
    ∀ routing : List Int,
      applyStage1Rules routing
        (rules.map (fun r => ⟨r.msg_type, r.processors.take 1⟩)) =
      applyStage1Rules routing rules := by
  induction rules with
  | nil => exact fun _ => rfl
  | cons r rest ih =>
    intro routing
    rw [List.map_cons, applyStage1Rules, applyStage1Rules]
    by_cases hc : 0 ≤ r.msg_type ∧ r.msg_type < 8
    · rw [if_pos hc, if_pos hc]
      cases hp : r.processors with
      | nil => rfl
      | cons p ps => exact ih (routing.set r.msg_type.toNat p)
    · rw [if_neg hc, if_neg hc]

/-- C10: only the first element of each rule's `processors` array becomes
the destination for that rule's type; truncating every `processors` array
to its first element leaves the loaded configuration unchanged, so a type
is never fanned out to more than one stage-1 shard. -/
theorem spec_c10 (raw : RawConfig) :
    load_config
      { raw with stage1_rules :=
          raw.stage1_rules.map (fun r => ⟨r.msg_type, r.processors.take 1⟩) } =
    load_config raw := by
  show (do
    let s1 ← applyStage1Rules (List.replicate 8 0)
      (raw.stage1_rules.map (fun r => ⟨r.msg_type, r.processors.take 1⟩))
    let s2 ← applyStage2Rules (List.replicate 8 0) raw.stage2_rules
    Except.ok
      { duration_secs := raw.duration_secs,
        producer_count := raw.producer_count,
        processor_count := raw.processor_count,
        strategy_count := raw.strategy_count,
        stage1_routing := s1, stage2_routing := s2 } : Except String Config) =
    load_config raw
  rw [applyStage1Rules_take1]
  rfl

/-- C3 corrected: `main` spawns the worker threads roots first — every
producer thread is created before every processor thread, and every
processor thread before every strategy thread: position `i` of the spawn
order holds producer `i`, position `producer_count + j` holds processor
`j`, and position `producer_count + processor_count + k` holds strategy
`k`. -/
theorem spec_c3 (cfg : Config) (i j k : Nat)
    (hi : i < cfg.producer_count.toNat)
    (hj : j < cfg.processor_count.toNat)
    (hk : k < cfg.strategy_count.toNat) :
    (spawnOrder cfg).getD i (Role.producer 0) = Role.producer i ∧
    (spawnOrder cfg).getD (cfg.producer_count.toNat + j) (Role.producer 0) =
      Role.processor j ∧
    (spawnOrder cfg).getD
      (cfg.producer_count.toNat + cfg.processor_count.toNat + k)
      (Role.producer 0) = Role.strategy k := by
  have hA : ((List.range cfg.producer_count.toNat).map Role.producer).length =
      cfg.producer_count.toNat := by simp
  have hB : ((List.range cfg.processor_count.toNat).map Role.processor).length =
      cfg.processor_count.toNat := by simp
  have hAB : (((List.range cfg.producer_count.toNat).map Role.producer) ++
      ((List.range cfg.processor_count.toNat).map Role.processor)).length =
      cfg.producer_count.toNat + cfg.processor_count.toNat := by simp
  refine ⟨?_, ?_, ?_⟩
  · rw [spawnOrder, List.getD_eq_getElem?_getD,
      List.getElem?_append_left (by rw [hAB]; omega),
      List.getElem?_append_left (by rw [hA]; omega),
      List.getElem?_map, List.getElem?_range hi]
    rfl
  · rw [spawnOrder, List.getD_eq_getElem?_getD,
      List.getElem?_append_left (by rw [hAB]; omega),
      List.getElem?_append_right (by rw [hA]; omega), hA,
      Nat.add_sub_cancel_left, List.getElem?_map, List.getElem?_range hj]
    rfl
  · rw [spawnOrder, List.getD_eq_getElem?_getD,
      List.getElem?_append_right (by rw [hAB]; omega), hAB,
      Nat.add_sub_cancel_left, List.getElem?_map, List.getElem?_range hk]
    rfl

/-- Witness for the corrected C3 at the loaded 1-1-1 configuration. -/
theorem spec_c3_witness :
    (0 < cfg111.producer_count.toNat) ∧
    (0 < cfg111.processor_count.toNat) ∧
    (0 < cfg111.strategy_count.toNat) ∧
    ((spawnOrder cfg111).getD 0 (Role.producer 0) = Role.producer 0 ∧
      (spawnOrder cfg111).getD (cfg111.producer_count.toNat + 0)
        (Role.producer 0) = Role.processor 0 ∧
      (spawnOrder cfg111).getD
        (cfg111.producer_count.toNat + cfg111.processor_count.toNat + 0)
        (Role.producer 0) = Role.strategy 0) :=
  ⟨by decide, by decide, by decide,
    spec_c3 cfg111 0 0 0 (by decide) (by decide) (by decide)⟩

/-- C3 counterexample: for the loaded 1-1-1 configuration the spawn order
is producer, then processor, then strategy — the first thread created is a
producer and the strategy comes last, contradicting the claim that all
strategies are created before any processor and all processors before any
producer. -/
theorem spec_c3_counterexample :
    load_config raw111 = Except.ok cfg111 ∧
    spawnOrder cfg111 = [Role.producer 0, Role.processor 0, Role.strategy 0] ∧
    (spawnOrder cfg111).getD 0 (Role.producer 0) = Role.producer 0 ∧
    (spawnOrder cfg111).getD 2 (Role.producer 0) = Role.strategy 0 :=
  ⟨rfl, by decide, by decide, by decide⟩

theorem monitorLost_zipWith (snaps : List (Nat × Nat)) :
    ∀ prev, monitorLost prev snaps =
      List.zipWith
        (fun cur pre =>
          (sub64 (sub64 cur.1 cur.2) (sub64 pre.1 pre.2),
            ((sub64 (sub64 cur.1 cur.2) (sub64 pre.1 pre.2) : Nat) : ℚ) /
              1000000))
        snaps (prev :: snaps) := by
  induction snaps with
  | nil => intro prev; rfl
  | cons s rest ih =>
    intro prev
    cases s with
    | mk p d =>
      show (sub64 (sub64 p d) (sub64 prev.1 prev.2),
          ((sub64 (sub64 p d) (sub64 prev.1 prev.2) : Nat) : ℚ) / 1000000) ::
          monitorLost (p, d) rest = _
      rw [List.zipWith, ih (p, d)]

/-- C8: the "Lost" quantity of each monitoring interval is the stateful
loop's value of `uint64_t lost_now = (p - d) - (prev_prod - prev_del)`
divided by `1e6` — exactly the per-interval flow-balance delta
`(p − d) − (p_prev − d_prev)` in wraparound 64-bit arithmetic on the
snapshots of the `produced` and `delivered` counters, with the previous
snapshot of second 1 being `(0, 0)`.  It is not a cumulative loss count:
on the snapshots `(10, 5)` then `(20, 15)` the second interval prints 0
although the cumulative difference `produced − delivered` is 5. -/
theorem spec_c8 (snaps : List (Nat × Nat)) :
    monitorRun snaps =
      List.zipWith
        (fun cur pre =>
          (sub64 (sub64 cur.1 cur.2) (sub64 pre.1 pre.2),
            ((sub64 (sub64 cur.1 cur.2) (sub64 pre.1 pre.2) : Nat) : ℚ) /
              1000000))
        snaps ((0, 0) :: snaps) ∧
    (monitorRun [(10, 5), (20, 15)]).map Prod.fst = [5, 0] ∧
    sub64 20 15 = 5 := by
  refine ⟨monitorLost_zipWith snaps (0, 0), ?_, by decide⟩
  have h1 : sub64 (sub64 10 5) (sub64 0 0) = 5 := by decide
  have h2 : sub64 (sub64 20 15) (sub64 10 5) = 0 := by decide
  show [(sub64 (sub64 10 5) (sub64 0 0), _), (sub64 (sub64 20 15) (sub64 10 5), _)].map Prod.fst = [5, 0]
  rw [List.map_cons, List.map_cons, List.map_nil]
  simp only [h1, h2]

theorem ratFloor_eq_intFloor (q : ℚ) : q.floor = ⌊q⌋ := rfl

theorem series100_sorted : List.Sorted (· ≤ ·) series100 := by
  have h := List.sorted_lt_range 100
  rw [series100]
  exact List.Pairwise.map _
    (fun a b hab => by
      have hc : (a : ℚ) ≤ (b : ℚ) := by exact_mod_cast Nat.le_of_lt hab
      linarith) h

theorem series100_mergeSort : series100.mergeSort = series100 :=
  List.mergeSort_eq_self series100_sorted

theorem series100_isEmpty : series100.isEmpty = false := by decide

theorem series100_length : series100.length = 100 := by decide

theorem series100_getD (i : Nat) (hi : i < 100) :
    series100.getD i 0 = (i : ℚ) + 1 := by
  rw [series100, List.getD_eq_getElem?_getD, List.getElem?_map,
    List.getElem?_range hi]
  rfl

theorem percentile_series100 (p : ℚ) (i : Nat) (hi : i < 100)
    (hidx : min (Rat.floor (p * ((100 : Nat) : ℚ))).toNat 99 = i) :
    LatencyStats.percentile series100 p = (i : ℚ) + 1 := by
  rw [LatencyStats.percentile, series100_isEmpty]
  simp only [Bool.false_eq_true, if_false]
  rw [series100_length, show (100 : Nat) - 1 = 99 from rfl, hidx,
    series100_mergeSort, series100_getD i hi]

theorem percentile_zero_spec (s : List ℚ) (hs : s ≠ []) :
    LatencyStats.percentile s 0 ∈ s ∧
      ∀ x ∈ s, LatencyStats.percentile s 0 ≤ x := by
  obtain ⟨a, t, rfl⟩ : ∃ a t, s = a :: t := by
    cases s with
    | nil => exact absurd rfl hs
    | cons a t => exact ⟨a, t, rfl⟩
  have key : LatencyStats.percentile (a :: t) 0 =
      ((a :: t).mergeSort).getD 0 0 := by
    rw [LatencyStats.percentile]
    simp only [List.isEmpty_cons, Bool.false_eq_true, if_false]
    have hz : min (Rat.floor ((0 : ℚ) * (((a :: t).length : Nat) : ℚ))).toNat
        ((a :: t).length - 1) = 0 := by
      rw [zero_mul, show Rat.floor (0 : ℚ) = 0 from rfl]
      simp
    rw [hz]
  cases hms : (a :: t).mergeSort with
  | nil =>
    exfalso
    have hlen := congrArg List.length hms
    simp at hlen
  | cons b u =>
    have hsorted : List.Sorted (· ≤ ·) ((a :: t).mergeSort) :=
      List.sorted_mergeSort' (a :: t)
    rw [hms, List.sorted_cons] at hsorted
    obtain ⟨hall, _⟩ := hsorted
    have hbmem : b ∈ a :: t := by
      have hmem : b ∈ (a :: t).mergeSort := by
        rw [hms]
        exact List.mem_cons_self b u
      exact List.mem_mergeSort.mp hmem
    constructor
    · rw [key, hms]
      exact hbmem
    · intro x hx
      rw [key, hms]
      have hx' : x ∈ (a :: t).mergeSort := List.mem_mergeSort.mpr hx
      rw [hms] at hx'
      rcases List.mem_cons.mp hx' with rfl | hxu
      · exact le_refl _
      · exact hall x hxu

theorem percentile_one_spec (s : List ℚ) (hs : s ≠ []) :
    LatencyStats.percentile s 1 ∈ s ∧
      ∀ x ∈ s, x ≤ LatencyStats.percentile s 1 := by
  have hlen : 0 < s.length := List.length_pos.mpr hs
  have hne : s.isEmpty = false := by
    cases s with
    | nil => exact absurd rfl hs
    | cons a t => rfl
  have hmlen : (s.mergeSort).length = s.length := List.length_mergeSort s
  have hlt : s.length - 1 < (s.mergeSort).length := by omega
  have key : LatencyStats.percentile s 1 = s.mergeSort[s.length - 1] := by
    rw [LatencyStats.percentile, hne]
    simp only [Bool.false_eq_true, if_false]
    have hidx : min (Rat.floor ((1 : ℚ) * ((s.length : Nat) : ℚ))).toNat
        (s.length - 1) = s.length - 1 := by
      rw [one_mul, ratFloor_eq_intFloor, Int.floor_natCast, Int.toNat_natCast]
      omega
    rw [hidx, List.getD_eq_getElem?_getD, List.getElem?_eq_getElem hlt]
    rfl
  have hsorted : List.Sorted (· ≤ ·) (s.mergeSort) :=
    List.sorted_mergeSort' s
  constructor
  · rw [key]
    exact List.mem_mergeSort.mp (List.getElem_mem hlt)
  · intro x hx
    rw [key]
    have hx2 : x ∈ s.mergeSort := List.mem_mergeSort.mpr hx
    obtain ⟨n, hn, hxeq⟩ := List.getElem_of_mem hx2
    rw [← hxeq]
    have hab : (⟨n, hn⟩ : Fin (s.mergeSort).length) ≤ ⟨s.length - 1, hlt⟩ := by
      show n ≤ s.length - 1
      omega
    have := hsorted.rel_get_of_le hab
    simpa using this

/-- C6: `percentile` returns 0 for the empty series; on the series
`[1, …, 100]` it returns 51 at `p = 0.50`, 91 at `p = 0.90` and 100 at
`p = 0.99` (the `min(floor(p·n), n−1)` rule); and for every non-empty
series it returns the minimum at `p = 0` and the maximum at `p = 1`. -/
theorem spec_c6 (s : List ℚ) (p : ℚ) (hs : s ≠ []) :
    LatencyStats.percentile [] p = 0 ∧
    LatencyStats.percentile series100 (1 / 2) = 51 ∧
    LatencyStats.percentile series100 (9 / 10) = 91 ∧
    LatencyStats.percentile series100 (99 / 100) = 100 ∧
    (LatencyStats.percentile s 0 ∈ s ∧
      ∀ x ∈ s, LatencyStats.percentile s 0 ≤ x) ∧
    (LatencyStats.percentile s 1 ∈ s ∧
      ∀ x ∈ s, x ≤ LatencyStats.percentile s 1) := by
  refine ⟨rfl, ?_, ?_, ?_, percentile_zero_spec s hs, percentile_one_spec s hs⟩
  · have h := percentile_series100 (1 / 2) 50 (by omega)
      (by rw [ratFloor_eq_intFloor]; norm_num; decide)
    rw [h]
    norm_num
  · have h := percentile_series100 (9 / 10) 90 (by omega)
      (by rw [ratFloor_eq_intFloor]; norm_num; decide)
    rw [h]
    norm_num
  · have h := percentile_series100 (99 / 100) 99 (by omega)
      (by rw [ratFloor_eq_intFloor]; norm_num; decide)
    rw [h]
    norm_num

/-- Witness for C6 at the series `[2, 1]`. -/
theorem spec_c6_witness :
    (([2, 1] : List ℚ) ≠ []) ∧
    (LatencyStats.percentile [] 7 = 0 ∧
      LatencyStats.percentile series100 (1 / 2) = 51 ∧
      LatencyStats.percentile series100 (9 / 10) = 91 ∧
      LatencyStats.percentile series100 (99 / 100) = 100 ∧
      (LatencyStats.percentile [2, 1] 0 ∈ ([2, 1] : List ℚ) ∧
        ∀ x ∈ ([2, 1] : List ℚ), LatencyStats.percentile [2, 1] 0 ≤ x) ∧
      (LatencyStats.percentile [2, 1] 1 ∈ ([2, 1] : List ℚ) ∧
        ∀ x ∈ ([2, 1] : List ℚ), x ≤ LatencyStats.percentile [2, 1] 1)) :=
  ⟨by decide, spec_c6 [2, 1] 7 (by decide)⟩

end Pipeline
